import Mathlib

/-!
Verification development for the Snowflake Conda Channel Explorer
(`src/app.py`).  The application fetches an HTML package listing, parses it
into records, sanitizes all text and URLs, and serves search, license
filtering and pagination over the parsed record set.

The definitions below are a shallow embedding of the functions of
`src/app.py`: `sanitize_url`, `sanitize_text`, `fetch_package_data`,
`parse_package_data`, `filter_packages`, and the inline pagination
arithmetic of `main`.  Python strings are Lean `String`s, Python lists are
Lean `List`s, raised exceptions are `Except.error`, and the pieces of the
standard library the code leans on (`urllib.parse.urlparse`, `html.escape`,
`re.escape` / `re.compile` / pattern search, BeautifulSoup cell access) are
modelled explicitly and documented at their definitions.
-/

/-- One parsed package row.  Field names follow the dict keys built in
`parse_package_data` (src/app.py lines 80–87). -/
structure PackageRecord where
  package_name : String
  version : String
  documentation : String
  development : String
  license : String
  summary : String
deriving DecidableEq, Inhabited

/-! ## Sanitizer: `sanitize_text` (src/app.py lines 49–53)

`sanitize_text` returns `""` for falsy input and otherwise
`html.escape(str(text))`.  We embed it on `String` inputs (for a string,
`str` is the identity and falsy means empty).  Python's `html.escape`
performs the sequential replacements `& → &amp;`, `< → &lt;`, `> → &gt;`,
`" → &quot;`, `\x27 → &#x27;` in that order; since `&` is replaced first and
no later replacement introduces a character replaced after it, the chain is
exactly the per-character expansion below. -/

/-- Per-character expansion of Python `html.escape` (quote mode). -/
def escapeChar (c : Char) : List Char :=
  if c = '&' then ['&', 'a', 'm', 'p', ';']
  else if c = '<' then ['&', 'l', 't', ';']
  else if c = '>' then ['&', 'g', 't', ';']
  else if c = '"' then ['&', 'q', 'u', 'o', 't', ';']
  else if c = '\'' then ['&', '#', 'x', '2', '7', ';']
  else [c]

/-- Embedding of Python `html.escape` (with quoting, the default). -/
def htmlEscape (s : String) : String :=
  String.mk (s.data.flatMap escapeChar)

/-- Embedding of `sanitize_text` (src/app.py lines 49–53) on strings. -/
def sanitize_text (text : String) : String :=
  if text = "" then "" else htmlEscape text

/-- The five entity strings `html.escape` can emit. -/
def entityStrings : List (List Char) :=
  [['&', 'a', 'm', 'p', ';'], ['&', 'l', 't', ';'], ['&', 'g', 't', ';'],
   ['&', 'q', 'u', 'o', 't', ';'], ['&', '#', 'x', '2', '7', ';']]

/-! ## Sanitizer: `sanitize_url` (src/app.py lines 29–47)

`sanitize_url` parses the URL with `urllib.parse.urlparse` and returns the
URL unchanged iff `parsed.netloc` is in the allowed-domain set; empty input,
parse failures (the bare `except:`) and non-allow-listed netlocs yield `""`.

We embed the part of CPython's `urlsplit` that determines `netloc`:
removal of tab/CR/LF characters, scheme detection and removal, and — when
the remainder starts with `//` — taking characters up to the first of
`/ ? #`.  Two simplifications, both invisible through `sanitize_url`:
CPython raises `ValueError` only for mismatched square brackets or invalid
bracketed (IPv6) hosts, while we treat any bracket in the netloc as a parse
failure — either way a bracketed netloc is never in the allow-list, so
`sanitize_url` returns `""` in both models; and the `_checknetloc` NFKC
check, which can only reject non-ASCII netlocs (never in the allow-list
either), is elided. -/

/-- Characters CPython's `urlsplit` deletes from the URL before parsing. -/
def removeUnsafe (l : List Char) : List Char :=
  l.filter (fun c => !(c == '\t' || c == '\r' || c == '\n'))

/-- Characters allowed in a URL scheme (`scheme_chars` in `urllib.parse`). -/
def isSchemeChar (c : Char) : Bool :=
  c.isAlpha || c.isDigit || c == '+' || c == '-' || c == '.'

/-- Scheme removal step of `urlsplit`: if the first colon is preceded by a
non-empty run of scheme characters starting with an ASCII letter, drop the
scheme and the colon. -/
def stripScheme (l : List Char) : List Char :=
  match l.findIdx? (fun c => c == ':') with
  | some i =>
      if 0 < i ∧ (l.headD ' ').isAlpha ∧ (l.take i).all isSchemeChar then
        l.drop (i + 1)
      else l
  | none => l

/-- Embedding of the netloc extraction of `urllib.parse.urlparse`: the
component between a leading `//` (after scheme removal) and the first of
`/ ? #`; `""` when the URL has no `//`.  `Except.error` models a raised
`ValueError`. -/
def urlparseNetloc (url : String) : Except String String :=
  let u := stripScheme (removeUnsafe url.data)
  if u.take 2 = ['/', '/'] then
    let netloc := (u.drop 2).takeWhile (fun c => !(c == '/' || c == '?' || c == '#'))
    if '[' ∈ netloc ∨ ']' ∈ netloc then Except.error "Invalid IPv6 URL"
    else Except.ok (String.mk netloc)
  else Except.ok ""

/-- The default allow-list built inside `sanitize_url` (src/app.py
lines 34–39). -/
def default_allowed_domains : List String :=
  ["repo.anaconda.com", "github.com", "docs.snowflake.com"]

/-- Embedding of `sanitize_url` (src/app.py lines 29–47).  The optional
second argument models the `allowed_domains=None` parameter; `none` selects
the default allow-list.  The bare `except:` of the source is the
`Except.error` branch. -/
def sanitize_url (url : String) (allowed_domains : Option (List String)) : String :=
  if url = "" then ""
  else
    let domains := allowed_domains.getD default_allowed_domains
    match urlparseNetloc url with
    | Except.ok netloc => if netloc ∈ domains then url else ""
    | Except.error _ => ""

/-! ## Parser: `parse_package_data` (src/app.py lines 66–90)

BeautifulSoup's construction of the document tree from a markup string
(`BeautifulSoup(html_content, "html.parser")`) never raises, so we embed
the already-built tree, restricted to what the function reads: the list of
`<tr>` rows of the document (in document order), each row being its list of
`<td>` cells, and each cell carrying its stripped text and its list of
anchor (`<a>`) descendants with their optional `href` attribute.
`str.strip()` is modelled by `stripText` below.

The function skips the first row, skips rows without cells, and for each
remaining row reads cells 0, 1, 4, 11 as text and the first anchor of cells
2 and 3 as links.  Subscripting an anchor tag that lacks the attribute
(`doc_link["href"]`) raises `KeyError` in BeautifulSoup, which this
function does not catch — modelled by `Except.error`. -/

/-- An anchor tag; `href` is `none` when the attribute is absent. -/
structure Anchor where
  href : Option String
deriving DecidableEq, Inhabited

/-- A `<td>` cell: its (already stripped) text and its anchor descendants
in document order. -/
structure Cell where
  text : String
  anchors : List Anchor
deriving DecidableEq, Inhabited

/-- `cols[i].find("a") if len(cols) > i else None`: the first anchor of
cell `i`, when the row has one. -/
def firstAnchor (cols : List Cell) (i : Nat) : Option Anchor :=
  match cols.get? i with
  | some c => c.anchors.head?
  | none => none

/-- `link["href"]`: attribute access on a tag, raising `KeyError` when the
attribute is absent. -/
def anchorHref (a : Anchor) : Except String String :=
  match a.href with
  | some h => Except.ok h
  | none => Except.error "KeyError: href"

/-- `doc_link["href"] if doc_link else ""` (src/app.py lines 83–84). -/
def linkHref (o : Option Anchor) : Except String String :=
  match o with
  | some a => anchorHref a
  | none => Except.ok ""

/-- Model of Python `str.strip()`: whitespace removed from both ends
(ASCII whitespace; Python also strips some further Unicode space
characters, which never occur in this development). -/
def stripText (s : String) : String :=
  String.mk (((s.data.dropWhile Char.isWhitespace).reverse.dropWhile Char.isWhitespace).reverse)

/-- `cols[i].text.strip() if len(cols) > i else ""`. -/
def cellText (cols : List Cell) (i : Nat) : String :=
  match cols.get? i with
  | some c => stripText c.text
  | none => ""

/-- One iteration of the row loop of `parse_package_data` (src/app.py
lines 76–88): build the `package_info` dict for a non-empty cell list.
The dict values are evaluated left to right in Python, so the
`documentation` link is forced before the `development` one; both precede
nothing observable, so sequencing only the two fallible accesses is
faithful. -/
def parseRow (cols : List Cell) : Except String PackageRecord := do
  let doc_link := firstAnchor cols 2
  let dev_link := firstAnchor cols 3
  let docHref ← linkHref doc_link
  let devHref ← linkHref dev_link
  Except.ok
    { package_name := sanitize_text (cellText cols 0)
      version := sanitize_text (cellText cols 1)
      documentation := sanitize_url docHref none
      development := sanitize_url devHref none
      license := sanitize_text (cellText cols 4)
      summary := sanitize_text (cellText cols 11) }

/-- The row loop of `parse_package_data`: rows without cells are skipped
(`if not cols: continue`), a raised `KeyError` aborts the whole loop. -/
def parseRows : List (List Cell) → Except String (List PackageRecord)
  | [] => Except.ok []
  | cols :: rest =>
    if cols.isEmpty then parseRows rest
    else do
      let r ← parseRow cols
      let rs ← parseRows rest
      Except.ok (r :: rs)

/-- Embedding of `parse_package_data` (src/app.py lines 66–90):
`soup.find_all("tr")[1:]` skips the header row, then the row loop runs. -/
def parse_package_data (doc : List (List Cell)) : Except String (List PackageRecord) :=
  parseRows (doc.drop 1)

/-! ## Fetcher: `fetch_package_data` (src/app.py lines 55–64)

The network outcome is the explicit input: `Except.error e` is a transport
exception with text `e` raised by `requests.get`, and a response carries
`ok` (whether `raise_for_status` passes, i.e. status < 400), the exception
text `reason` it raises otherwise (both are `requests.RequestException`s,
the class the `except` clause catches), and the parsed tree `body` of
`response.text`.  The result pairs the value the function returns — or the
exception `parse_package_data` may itself raise, which the `except` clause
does not catch — with the message passed to `st.error`, `none` when no
error is displayed.  The `@st.cache_data` decorator only memoizes and is
not modelled. -/

structure HttpResponse where
  ok : Bool
  reason : String
  body : List (List Cell)

/-- Embedding of `fetch_package_data` (src/app.py lines 55–64). -/
def fetch_package_data (net : Except String HttpResponse) :
    Except String (List PackageRecord) × Option String :=
  match net with
  | Except.error e =>
      (Except.ok [], some ("Error fetching package data: " ++ sanitize_text e))
  | Except.ok resp =>
      if resp.ok then (parse_package_data resp.body, none)
      else (Except.ok [], some ("Error fetching package data: " ++ sanitize_text resp.reason))

/-! ## Query engine: `filter_packages` (src/app.py lines 92–118)

The search branch computes `re.escape(sanitize_text(search_term))`,
compiles it with `re.IGNORECASE` and keeps rows whose `package_name` or
`summary` the pattern matches somewhere (`Series.str.contains` uses
`pattern.search`).  We embed `re.escape` exactly (Python ≥ 3.7 prefixes a
backslash to each character of `()[]{}?*+-|^$\.&~# \t\n\r\v\f`) and a
regex compiler for the fragment that can arise here: a backslash followed
by one of those characters is the literal character, a bare `.` is the
any-character atom, a bare structural metacharacter or an unmodelled
escape is a compilation failure (`none`), and any other bare character is
itself a literal.  Matching is case-insensitive via `Char.toLower`, an
ASCII model of `re.IGNORECASE`; a bare `.` matches any character except a
newline, as in Python without `re.DOTALL`. -/

/-- Characters `re.escape` prefixes with a backslash (Python ≥ 3.7). -/
def reEscapeSpecials : List Char :=
  ['(', ')', '[', ']', '{', '}', '?', '*', '+', '-', '|', '^', '$', '\\',
   '.', '&', '~', '#', ' ', '\t', '\n', '\r', '\x0b', '\x0c']

/-- Embedding of Python `re.escape`. -/
def re_escape (s : String) : String :=
  String.mk (s.data.flatMap (fun c => if c ∈ reEscapeSpecials then ['\\', c] else [c]))

/-- Atoms of the regex fragment reachable from `re.escape` output. -/
inductive Atom where
  | lit (c : Char)
  | dot
deriving DecidableEq

/-- Bare characters with structural meaning in a pattern (groups,
classes, repetition, alternation, anchors, escapes).  The model is only
exercised on `re.escape` output, which contains none of these bare; on
other patterns the compiler conservatively answers `none` where Python
would build a structural pattern or raise `re.error`. -/
def reStructural : List Char :=
  ['(', ')', '[', ']', '{', '}', '?', '*', '+', '|', '^', '$', '\\']

/-- Compiler for the regex fragment reachable from `re.escape` output
(see the section comment).  `none` models `re.error` raised by
`re.compile` — or a structural pattern outside the fragment, which
`re.escape` output never contains. -/
def compileRe : List Char → Option (List Atom)
  | [] => some []
  | c :: rest =>
    if c = '\\' then
      match rest with
      | [] => none
      | d :: rest2 =>
        if d ∈ reEscapeSpecials then (compileRe rest2).map (Atom.lit d :: ·)
        else none
    else if c = '.' then (compileRe rest).map (Atom.dot :: ·)
    else if c ∈ reStructural then none
    else (compileRe rest).map (Atom.lit c :: ·)

/-- One atom against one character, under `re.IGNORECASE`. -/
def atomMatches : Atom → Char → Bool
  | Atom.lit c, d => c.toLower == d.toLower
  | Atom.dot, d => d != '\n'

/-- The atom sequence matches a prefix of the text. -/
def atomsLead : List Atom → List Char → Bool
  | [], _ => true
  | _ :: _, [] => false
  | a :: as, c :: cs => atomMatches a c && atomsLead as cs

/-- `pattern.search`: the atom sequence matches starting at some position. -/
def searchAtoms (atoms : List Atom) : List Char → Bool
  | [] => atomsLead atoms []
  | c :: cs => atomsLead atoms (c :: cs) || searchAtoms atoms cs

/-- `pattern.search(text)` on a string. -/
def reSearch (atoms : List Atom) (text : String) : Bool :=
  searchAtoms atoms text.data

/-- Case-insensitive literal list containment at the front. -/
def leadEq : List Char → List Char → Bool
  | [], _ => true
  | _ :: _, [] => false
  | a :: as, b :: bs => (a == b) && leadEq as bs

/-- Literal list containment at some position. -/
def occursIn (p : List Char) : List Char → Bool
  | [] => leadEq p []
  | c :: cs => leadEq p (c :: cs) || occursIn p cs

/-- Specification-side notion: `pat` occurs in `hay` as a case-insensitive
literal substring (lowercasing both, an ASCII model of `re.IGNORECASE`). -/
def ciContains (hay pat : String) : Bool :=
  occursIn (pat.data.map Char.toLower) (hay.data.map Char.toLower)

/-- Embedding of `filter_packages` (src/app.py lines 92–118): the search
filter runs when `search_term` is non-empty, then the license filter when
`license_filter` is not `"All"`; pandas boolean-mask selection is a stable
`List.filter`, and a raised `re.error` would propagate
(`Except.error`). -/
def filter_packages (df : List PackageRecord) (search_term license_filter : String) :
    Except String (List PackageRecord) := do
  let afterSearch ←
    if search_term = "" then Except.ok df
    else
      match compileRe (re_escape (sanitize_text search_term)).data with
      | some pattern =>
          Except.ok (df.filter (fun r =>
            reSearch pattern r.package_name || reSearch pattern r.summary))
      | none => Except.error "re.error"
  let afterLicense :=
    if license_filter ≠ "All" then
      afterSearch.filter (fun r => r.license == sanitize_text license_filter)
    else afterSearch
  Except.ok afterLicense

/-! ## Pagination (src/app.py lines 306–330)

`main` computes `total_items = len(filtered_df)`,
`total_pages = math.ceil(total_items / ITEMS_PER_PAGE)`,
`start_idx = (current_page - 1) * ITEMS_PER_PAGE`,
`end_idx = start_idx + ITEMS_PER_PAGE` and slices
`filtered_df.iloc[start_idx:end_idx]`.  We embed the computation with the
page size as a parameter; `main` instantiates it with the constant
`ITEMS_PER_PAGE = 15`.  For positive page size, `math.ceil` of the exact
quotient is the natural ceiling division used here, and the `iloc` slice
with non-negative bounds is take-then-drop. -/

/-- `ITEMS_PER_PAGE` (src/app.py line 15). -/
def ITEMS_PER_PAGE : Nat := 15

structure PageResult where
  page_slice : List PackageRecord
  total_items : Nat
  total_pages : Nat
deriving DecidableEq

/-- Embedding of the pagination arithmetic of `main`
(src/app.py lines 306–330). -/
def paginate (records : List PackageRecord) (page page_size : Nat) : PageResult :=
  let total_items := records.length
  let total_pages := (total_items + page_size - 1) / page_size
  let start_idx := (page - 1) * page_size
  let end_idx := start_idx + page_size
  { page_slice := (records.take end_idx).drop start_idx
    total_items := total_items
    total_pages := total_pages }

/-!
# Helper lemmas about the escaping pipeline
-/

theorem not_lt_escapeChar (c : Char) : '<' ∉ escapeChar c := by
  unfold escapeChar
  repeat' split
  all_goals
    first
    | decide
    | (rename_i h1 h2 h3 h4 h5
       simp only [List.mem_singleton]
       exact fun hh => h2 hh.symm)

theorem not_gt_escapeChar (c : Char) : '>' ∉ escapeChar c := by
  unfold escapeChar
  repeat' split
  all_goals
    first
    | decide
    | (rename_i h1 h2 h3 h4 h5
       simp only [List.mem_singleton]
       exact fun hh => h3 hh.symm)

theorem not_lt_flatMap_escape (l : List Char) : '<' ∉ l.flatMap escapeChar := by
  intro h
  rcases List.mem_flatMap.mp h with ⟨c, _, hc⟩
  exact not_lt_escapeChar c hc

theorem not_gt_flatMap_escape (l : List Char) : '>' ∉ l.flatMap escapeChar := by
  intro h
  rcases List.mem_flatMap.mp h with ⟨c, _, hc⟩
  exact not_gt_escapeChar c hc

theorem sanitize_text_no_lt (s : String) : '<' ∉ (sanitize_text s).data := by
  unfold sanitize_text
  split
  · decide
  · exact not_lt_flatMap_escape _

theorem sanitize_text_no_gt (s : String) : '>' ∉ (sanitize_text s).data := by
  unfold sanitize_text
  split
  · decide
  · exact not_gt_flatMap_escape _

/-- Every suffix of `l` that starts with `&` starts with a complete
escaping entity: no stray ampersands. -/
def ampSafe (l : List Char) : Prop :=
  ∀ t, t <:+ l → t.head? = some '&' → ∃ e ∈ entityStrings, e <+: t

theorem ampSafe_nil : ampSafe [] := by
  intro t ht hh
  rw [List.suffix_nil.mp ht] at hh
  simp at hh

theorem ampSafe_cons_of_ne (c : Char) (hc : c ≠ '&') (l : List Char) (hl : ampSafe l) :
    ampSafe (c :: l) := by
  intro t ht hh
  rcases List.suffix_cons_iff.mp ht with rfl | ht'
  · simp only [List.head?_cons, Option.some.injEq] at hh
    exact absurd hh hc
  · exact hl t ht' hh

theorem ampSafe_append_of_no_amp (m : List Char) (hm : '&' ∉ m) (l : List Char)
    (hl : ampSafe l) : ampSafe (m ++ l) := by
  induction m with
  | nil => simpa using hl
  | cons c cs ih =>
    have hc : c ≠ '&' := fun h => hm (h ▸ List.mem_cons_self c cs)
    have hcs : '&' ∉ cs := fun h => hm (List.mem_cons_of_mem c h)
    exact ampSafe_cons_of_ne c hc _ (ih hcs)

theorem ampSafe_entity_append (tail : List Char) (htail : '&' ∉ tail)
    (hent : ('&' :: tail) ∈ entityStrings) (l : List Char) (hl : ampSafe l) :
    ampSafe ('&' :: tail ++ l) := by
  intro t ht hh
  rcases List.suffix_cons_iff.mp ht with rfl | ht'
  · exact ⟨'&' :: tail, hent, ⟨l, by simp⟩⟩
  · exact ampSafe_append_of_no_amp tail htail l hl t ht' hh

theorem ampSafe_flatMap_escape (l : List Char) : ampSafe (l.flatMap escapeChar) := by
  induction l with
  | nil => exact ampSafe_nil
  | cons c cs ih =>
    show ampSafe (escapeChar c ++ cs.flatMap escapeChar)
    unfold escapeChar
    repeat' split
    · exact ampSafe_entity_append ['a', 'm', 'p', ';'] (by decide) (by decide) _ ih
    · exact ampSafe_entity_append ['l', 't', ';'] (by decide) (by decide) _ ih
    · exact ampSafe_entity_append ['g', 't', ';'] (by decide) (by decide) _ ih
    · exact ampSafe_entity_append ['q', 'u', 'o', 't', ';'] (by decide) (by decide) _ ih
    · exact ampSafe_entity_append ['#', 'x', '2', '7', ';'] (by decide) (by decide) _ ih
    · rename_i h1 h2 h3 h4 h5
      exact ampSafe_cons_of_ne c (fun hh => h1 hh) _ ih

theorem sanitize_text_ampSafe (s : String) : ampSafe (sanitize_text s).data := by
  unfold sanitize_text
  split
  · exact ampSafe_nil
  · exact ampSafe_flatMap_escape _

/-!
# Helper lemmas about the parser
-/

/-- The first anchor of a cell, when there is one, carries an `href`
attribute — the condition under which the source's `doc_link["href"]`
access cannot raise `KeyError`. -/
def linkSafeB (o : Option Anchor) : Bool :=
  match o with
  | some a => a.href.isSome
  | none => true

/-- The link target the parse stores (before `sanitize_url`): the first
anchor's `href` when present, else `""`. -/
def hrefOrEmpty (o : Option Anchor) : String :=
  match o with
  | some a => a.href.getD ""
  | none => ""

theorem linkHref_of_safe (o : Option Anchor) (h : linkSafeB o = true) :
    linkHref o = Except.ok (hrefOrEmpty o) := by
  match o with
  | none => rfl
  | some a =>
    match ha : a.href with
    | some x => simp [linkHref, anchorHref, hrefOrEmpty, ha]
    | none =>
      rw [linkSafeB, ha] at h
      simp at h

theorem parseRow_ok (cols : List Cell)
    (h2 : linkSafeB (firstAnchor cols 2) = true)
    (h3 : linkSafeB (firstAnchor cols 3) = true) :
    parseRow cols = Except.ok
      { package_name := sanitize_text (cellText cols 0)
        version := sanitize_text (cellText cols 1)
        documentation := sanitize_url (hrefOrEmpty (firstAnchor cols 2)) none
        development := sanitize_url (hrefOrEmpty (firstAnchor cols 3)) none
        license := sanitize_text (cellText cols 4)
        summary := sanitize_text (cellText cols 11) } := by
  unfold parseRow
  simp only [linkHref_of_safe _ h2, linkHref_of_safe _ h3]
  rfl

/-- A non-empty row whose `parseRow` succeeds contributes its record and
the loop continues over the remaining rows. -/
theorem parseRows_cons_ok (cols : List Cell) (rest : List (List Cell))
    (he : ¬cols.isEmpty = true) (r : PackageRecord) (hr : parseRow cols = Except.ok r)
    (rs : List PackageRecord) (hrs : parseRows rest = Except.ok rs) :
    parseRows (cols :: rest) = Except.ok (r :: rs) := by
  rw [parseRows, if_neg he]
  show Except.bind (parseRow cols) _ = _
  rw [hr]
  show Except.bind (parseRows rest) _ = _
  rw [hrs]
  rfl

theorem parseRows_ok (rows : List (List Cell))
    (h : ∀ cols ∈ rows,
        linkSafeB (firstAnchor cols 2) = true ∧ linkSafeB (firstAnchor cols 3) = true) :
    ∃ recs, parseRows rows = Except.ok recs := by
  induction rows with
  | nil => exact ⟨[], rfl⟩
  | cons cols rest ih =>
    obtain ⟨rs, hrs⟩ := ih (fun c hc => h c (List.mem_cons_of_mem _ hc))
    have hcols := h cols (List.mem_cons_self _ _)
    by_cases he : cols.isEmpty
    · exact ⟨rs, by rw [parseRows, if_pos he, hrs]⟩
    · exact ⟨_ :: rs,
        parseRows_cons_ok cols rest he _ (parseRow_ok cols hcols.1 hcols.2) rs hrs⟩

/-!
# Helper lemmas about the regex pipeline
-/

theorem mem_reEscapeSpecials_of_mem_reStructural (c : Char) (h : c ∈ reStructural) :
    c ∈ reEscapeSpecials := by
  fin_cases h <;> decide

theorem compileRe_flatMap_escape (l : List Char) :
    compileRe (l.flatMap (fun c => if c ∈ reEscapeSpecials then ['\\', c] else [c]))
      = some (l.map Atom.lit) := by
  induction l with
  | nil => rfl
  | cons c cs ih =>
    by_cases hc : c ∈ reEscapeSpecials
    · simp only [List.flatMap_cons, if_pos hc]
      show compileRe ('\\' :: c :: _) = _
      simp [compileRe, hc, ih]
    · have h1 : ¬c = '\\' := fun h => hc (h ▸ by decide)
      have h2 : ¬c = '.' := fun h => hc (h ▸ by decide)
      have h3 : c ∉ reStructural := fun h => hc (mem_reEscapeSpecials_of_mem_reStructural c h)
      simp only [List.flatMap_cons, if_neg hc, List.singleton_append]
      rw [compileRe.eq_def]
      dsimp only
      rw [if_neg h1, if_neg h2, if_neg h3, ih]
      rfl

/-- `re.escape` of any sanitized term compiles, to the all-literal atom
sequence of the term. -/
theorem compileRe_re_escape (s : String) :
    compileRe (re_escape s).data = some (s.data.map Atom.lit) :=
  compileRe_flatMap_escape s.data

theorem atomsLead_map_lit (p : List Char) :
    ∀ l, atomsLead (p.map Atom.lit) l = leadEq (p.map Char.toLower) (l.map Char.toLower) := by
  induction p with
  | nil => intro l; cases l <;> rfl
  | cons c cs ih =>
    intro l
    cases l with
    | nil => rfl
    | cons d ds => simp [atomsLead, leadEq, atomMatches, ih]

theorem searchAtoms_map_lit (p l : List Char) :
    searchAtoms (p.map Atom.lit) l = occursIn (p.map Char.toLower) (l.map Char.toLower) := by
  induction l with
  | nil => exact atomsLead_map_lit p []
  | cons d ds ih => simp [searchAtoms, occursIn, atomsLead_map_lit, ih]

/-- Searching an all-literal pattern is exactly case-insensitive literal
substring containment. -/
theorem reSearch_map_lit (p : String) (text : String) :
    reSearch (p.data.map Atom.lit) text = ciContains text p :=
  searchAtoms_map_lit p.data text.data

/-- Closed form of `filter_packages`: it always succeeds, with the search
filter (when active) testing case-insensitive literal containment of the
sanitized term, then the license filter (when active) testing equality
with the sanitized license. -/
theorem filter_packages_eq_ok (df : List PackageRecord) (s l : String) :
    filter_packages df s l = Except.ok (
      if l ≠ "All" then
        (if s = "" then df
         else df.filter (fun r =>
           ciContains r.package_name (sanitize_text s)
             || ciContains r.summary (sanitize_text s))).filter
          (fun r => r.license == sanitize_text l)
      else
        (if s = "" then df
         else df.filter (fun r =>
           ciContains r.package_name (sanitize_text s)
             || ciContains r.summary (sanitize_text s)))) := by
  have hfun : (fun r : PackageRecord =>
        reSearch ((sanitize_text s).data.map Atom.lit) r.package_name
          || reSearch ((sanitize_text s).data.map Atom.lit) r.summary)
      = (fun r : PackageRecord =>
        ciContains r.package_name (sanitize_text s)
          || ciContains r.summary (sanitize_text s)) := by
    funext r
    rw [reSearch_map_lit, reSearch_map_lit]
  unfold filter_packages
  by_cases hs : s = ""
  · simp only [hs, if_pos rfl, ite_true]
    rfl
  · rw [if_neg hs, compileRe_re_escape]
    show Except.ok _ = Except.ok _
    rw [if_neg hs, hfun]

/-- The record-keeping predicate of the (amended) filter claim: both
active filters must pass — non-empty search terms as case-insensitive
literal containment of the sanitized term in name or summary, non-`"All"`
license filters as exact equality with the sanitized license. -/
def keepPred (search_term license_filter : String) (r : PackageRecord) : Bool :=
  (search_term == ""
      || ciContains r.package_name (sanitize_text search_term)
      || ciContains r.summary (sanitize_text search_term))
    && (license_filter == "All" || r.license == sanitize_text license_filter)

/-!
# Claim theorems
-/

/-- C1 (amended): the pagination computation of `main` returns
`total_pages` equal to the ceiling of `total_items / ITEMS_PER_PAGE` with
no minimum applied: `total_pages` is the least number of pages covering
`total_items` items, so when the filtered record set is empty
`total_pages = 0` (not 1), and the empty result still yields an empty
slice without a division error. -/
theorem C1_total_pages_is_exact_ceiling (records : List PackageRecord) (page : Nat) :
    (paginate records page ITEMS_PER_PAGE).total_items
        ≤ (paginate records page ITEMS_PER_PAGE).total_pages * ITEMS_PER_PAGE ∧
    (0 < (paginate records page ITEMS_PER_PAGE).total_items →
      ((paginate records page ITEMS_PER_PAGE).total_pages - 1) * ITEMS_PER_PAGE
        < (paginate records page ITEMS_PER_PAGE).total_items) ∧
    (records = [] →
      (paginate records page ITEMS_PER_PAGE).total_pages = 0 ∧
      (paginate records page ITEMS_PER_PAGE).page_slice = []) := by
  refine ⟨?_, ?_, ?_⟩
  · simp only [paginate, ITEMS_PER_PAGE]
    omega
  · simp only [paginate, ITEMS_PER_PAGE]
    omega
  · rintro rfl
    exact ⟨rfl, by simp [paginate]⟩

/-- Witness for C1: at the empty record set the hypotheses hold and the
amended pagination facts follow. -/
theorem C1_total_pages_is_exact_ceiling_witness :
    (paginate [] 1 ITEMS_PER_PAGE).total_pages = 0 ∧
    (paginate [] 1 ITEMS_PER_PAGE).page_slice = [] :=
  (C1_total_pages_is_exact_ceiling [] 1).2.2 rfl

/-- C1 counterexample: on an empty filtered record set the code computes
`total_pages = math.ceil(0 / 15) = 0`, not the minimum of 1 the claim
states. -/
theorem C1_counterexample :
    (paginate [] 1 ITEMS_PER_PAGE).total_items = 0 ∧
    (paginate [] 1 ITEMS_PER_PAGE).total_pages = 0 ∧
    ¬ (paginate [] 1 ITEMS_PER_PAGE).total_pages = 1 := by
  decide

/-- C2 (amended): `parse_package_data` never raises on any document in
which the first anchor of every documentation/source cell carries an
`href` attribute; under that condition each documentation/source cell
yields the first anchor's link target when present — passed through
`sanitize_url` — and the empty string otherwise.  (Without the condition
the claim fails: an anchor present without `href` raises `KeyError`, see
the counterexample.) -/
theorem C2_parse_total_on_href_anchors (doc : List (List Cell))
    (h : ∀ cols ∈ doc,
        linkSafeB (firstAnchor cols 2) = true ∧ linkSafeB (firstAnchor cols 3) = true) :
    (∃ recs, parse_package_data doc = Except.ok recs) ∧
    (∀ cols, linkSafeB (firstAnchor cols 2) = true →
        linkSafeB (firstAnchor cols 3) = true →
        ∃ r, parseRow cols = Except.ok r ∧
          r.documentation = sanitize_url (hrefOrEmpty (firstAnchor cols 2)) none ∧
          r.development = sanitize_url (hrefOrEmpty (firstAnchor cols 3)) none) := by
  constructor
  · exact parseRows_ok _ (fun c hc => h c (List.mem_of_mem_drop hc))
  · intro cols g2 g3
    exact ⟨_, parseRow_ok cols g2 g3, rfl, rfl⟩

/-- Witness for C2: a one-row document (after the header) with no anchors
satisfies the hypothesis and parses successfully. -/
theorem C2_parse_total_on_href_anchors_witness :
    ∃ recs, parse_package_data [[], [Cell.mk "pkg" []]] = Except.ok recs :=
  (C2_parse_total_on_href_anchors [[], [Cell.mk "pkg" []]] (by decide)).1

/-- C2 counterexample: a row whose documentation cell holds an anchor
without an `href` attribute makes `parse_package_data` raise `KeyError`
(the uncaught `doc_link["href"]` subscript), instead of collapsing the
field to the empty string as the claim states. -/
theorem C2_counterexample :
    parse_package_data
        [[], [Cell.mk "pkg" [], Cell.mk "1.0" [], Cell.mk "" [Anchor.mk none]]]
      = Except.error "KeyError: href" := rfl

/-- C8 (amended): a table row with at least one but fewer than 12 cells,
whose documentation/source cells contain no anchor lacking an `href`
attribute, yields a record in which every field whose source cell index is
out of range is the empty string, and parsing continues to the subsequent
rows.  (Without the anchor condition the claim fails: a short row with an
`href`-less anchor aborts the whole parse, see the counterexample.) -/
theorem C8_short_rows_degrade (hdr cols : List Cell) (rest : List (List Cell))
    (h0 : cols ≠ []) (h12 : cols.length < 12)
    (h2 : linkSafeB (firstAnchor cols 2) = true)
    (h3 : linkSafeB (firstAnchor cols 3) = true) :
    ∃ r, parseRow cols = Except.ok r ∧
      (cols.length ≤ 1 → r.version = "") ∧
      (cols.length ≤ 2 → r.documentation = "") ∧
      (cols.length ≤ 3 → r.development = "") ∧
      (cols.length ≤ 4 → r.license = "") ∧
      r.summary = "" ∧
      (∀ rs, parseRows rest = Except.ok rs →
        parse_package_data (hdr :: cols :: rest) = Except.ok (r :: rs)) := by
  refine ⟨_, parseRow_ok cols h2 h3, ?_, ?_, ?_, ?_, ?_, ?_⟩
  · intro hlen
    show sanitize_text (cellText cols 1) = ""
    rw [cellText, List.get?_eq_none.mpr hlen]
    rfl
  · intro hlen
    show sanitize_url (hrefOrEmpty (firstAnchor cols 2)) none = ""
    rw [firstAnchor, List.get?_eq_none.mpr hlen]
    rfl
  · intro hlen
    show sanitize_url (hrefOrEmpty (firstAnchor cols 3)) none = ""
    rw [firstAnchor, List.get?_eq_none.mpr hlen]
    rfl
  · intro hlen
    show sanitize_text (cellText cols 4) = ""
    rw [cellText, List.get?_eq_none.mpr hlen]
    rfl
  · show sanitize_text (cellText cols 11) = ""
    rw [cellText, List.get?_eq_none.mpr (by omega)]
    rfl
  · intro rs hrs
    exact parseRows_cons_ok cols rest
      (fun he => h0 (List.isEmpty_iff.mp he)) _ (parseRow_ok cols h2 h3) rs hrs

/-- Witness for C8: a one-cell row after the header, with an empty rest of
the document: all out-of-range fields are empty and the parse of the rest
continues (vacuously, to the empty record list). -/
theorem C8_short_rows_degrade_witness :
    ∃ r, parseRow [Cell.mk "pkg" []] = Except.ok r ∧ r.version = "" ∧ r.summary = "" ∧
      parse_package_data [[], [Cell.mk "pkg" []]] = Except.ok [r] := by
  obtain ⟨r, hr, hv, _, _, _, hsum, hcont⟩ :=
    C8_short_rows_degrade [] [Cell.mk "pkg" []] [] (by decide) (by decide) rfl rfl
  exact ⟨r, hr, hv (by decide), hsum, hcont [] rfl⟩

/-- C8 counterexample: the second row is short (3 cells, at least one
cell) but its documentation cell holds an anchor without `href`; the
parse aborts with `KeyError`, producing no record for that row and never
reaching the third row — contradicting both the produced-record and the
parsing-continues parts of the claim. -/
theorem C8_counterexample :
    parse_package_data
        [[], [Cell.mk "a" [], Cell.mk "b" [], Cell.mk "" [Anchor.mk none]],
         [Cell.mk "c" []]]
      = Except.error "KeyError: href" := rfl

/-- C3 (amended): `filter_packages` keeps a record iff it passes both
active filters, composed with logical AND: when the search term is
non-empty, the record's name OR summary must contain the sanitized
(HTML-escaped) search term as a case-insensitive literal substring — the
code matches `re.escape(sanitize_text(search_term))`, not the raw term;
when the license filter is not `"All"`, the record's license must equal
the sanitized filter exactly and case-sensitively.  The output is the
stable filter of the input, preserving relative order. -/
theorem C3_filter_and_composition (df : List PackageRecord) (s l : String) :
    filter_packages df s l = Except.ok (df.filter (keepPred s l)) ∧
    List.Sublist (df.filter (keepPred s l)) df := by
  refine ⟨?_, List.filter_sublist df⟩
  rw [filter_packages_eq_ok]
  congr 1
  by_cases hs : s = "" <;> by_cases hl : l = "All"
  · subst hs
    subst hl
    have hk : keepPred "" "All" = fun _ => true := by
      funext r
      simp [keepPred]
    rw [hk]
    simp
  · subst hs
    have hlb : (l == "All") = false := beq_eq_false_iff_ne.mpr hl
    rw [if_pos rfl, if_pos hl]
    apply List.filter_congr
    intro r _
    simp [keepPred, hlb]
  · subst hl
    have hsb : (s == "") = false := beq_eq_false_iff_ne.mpr hs
    rw [if_neg hs, if_neg (fun h : ¬"All" = "All" => h rfl)]
    apply List.filter_congr
    intro r _
    simp [keepPred, hsb]
  · have hsb : (s == "") = false := beq_eq_false_iff_ne.mpr hs
    have hlb : (l == "All") = false := beq_eq_false_iff_ne.mpr hl
    rw [if_neg hs, if_pos hl, List.filter_filter]
    apply List.filter_congr
    intro r _
    simp [keepPred, hsb, hlb, Bool.and_comm]

/-- C3 counterexample: the code matches the HTML-escaped search term, not
the raw one.  A record whose (sanitized) name is `&lt;` — the stored form
of a raw `<` — is kept by `filter_packages` for the search term `<`
(because `sanitize_text "<" = "&lt;"` occurs in the name), although
neither its name nor its summary contains the raw term `<` as a
case-insensitive substring, and the search term is active. -/
theorem C3_counterexample :
    filter_packages [PackageRecord.mk "&lt;" "" "" "" "" ""] "<" "All"
        = Except.ok [PackageRecord.mk "&lt;" "" "" "" "" ""] ∧
    ciContains "&lt;" "<" = false ∧
    ciContains "" "<" = false ∧
    ("<" : String) ≠ "" := by
  refine ⟨rfl, by decide, by decide, by decide⟩

/-- C7: for every search term, `re.escape` applied to the sanitized term
always compiles — to the all-literal atom sequence of the sanitized term,
so regex metacharacters such as `.` `*` `(` are never interpreted as
pattern structure — matching that pattern is exactly case-insensitive
literal substring containment, and `filter_packages` therefore never
raises a pattern-compilation or matching error. -/
theorem C7_regex_injection_safety (search_term : String) :
    compileRe (re_escape (sanitize_text search_term)).data
        = some ((sanitize_text search_term).data.map Atom.lit) ∧
    (∀ text : String,
        reSearch ((sanitize_text search_term).data.map Atom.lit) text
          = ciContains text (sanitize_text search_term)) ∧
    (∀ df license_filter, ∃ out,
        filter_packages df search_term license_filter = Except.ok out) := by
  exact ⟨compileRe_re_escape (sanitize_text search_term),
    fun text => reSearch_map_lit (sanitize_text search_term) text,
    fun df license_filter => ⟨_, filter_packages_eq_ok df search_term license_filter⟩⟩

/-- C4: for every record set, page ≥ 1 and page size, the pagination of
`main` computes `start = (page-1)*page_size`, `end = start+page_size` and
returns exactly the sub-sequence `[start, end)` of the records intersected
with the available bounds; when `start ≥ total_items` the slice is empty,
and in general the slice has `min page_size (total_items - start)`
records. -/
theorem C4_page_slice_bounds (records : List PackageRecord) (page page_size : Nat)
    (hpage : 1 ≤ page) :
    (paginate records page page_size).page_slice
        = (records.drop ((page - 1) * page_size)).take page_size ∧
    (records.length ≤ (page - 1) * page_size →
        (paginate records page page_size).page_slice = []) ∧
    (paginate records page page_size).page_slice.length
        = min page_size (records.length - (page - 1) * page_size) := by
  have hslice : (paginate records page page_size).page_slice
      = (records.drop ((page - 1) * page_size)).take page_size := by
    simp only [paginate, List.take_drop]
  refine ⟨hslice, ?_, ?_⟩
  · intro hout
    rw [hslice, List.drop_eq_nil_of_le hout, List.take_nil]
  · rw [hslice]
    simp [Nat.min_comm]

/-- Witness for C4, at the spec's example sizes: with 32 records and page
size 15, page 1 holds 15 records, page 3 holds 2, and page 4 (out of
range) is an empty slice. -/
theorem C4_page_slice_bounds_witness :
    (paginate (List.replicate 32 default) 1 15).page_slice.length = 15 ∧
    (paginate (List.replicate 32 default) 3 15).page_slice.length = 2 ∧
    (paginate (List.replicate 32 default) 4 15).page_slice = [] := by
  refine ⟨?_, ?_, ?_⟩
  · rw [(C4_page_slice_bounds (List.replicate 32 default) 1 15 (by decide)).2.2]
    decide
  · rw [(C4_page_slice_bounds (List.replicate 32 default) 3 15 (by decide)).2.2]
    decide
  · exact (C4_page_slice_bounds (List.replicate 32 default) 4 15 (by decide)).2.1 (by decide)

/-- C5: `sanitize_url` returns `""` when the input is empty, when
`urlparse` raises, or when the parsed netloc (the host component, as the
code reads it) is not exactly an entry of the default allow-list, and
returns the input unchanged otherwise; being a total function it never
raises. -/
theorem C5_sanitize_url_allowlist (url : String) :
    (url = "" → sanitize_url url none = "") ∧
    (∀ e, urlparseNetloc url = Except.error e → sanitize_url url none = "") ∧
    (∀ h, urlparseNetloc url = Except.ok h → h ∉ default_allowed_domains →
        sanitize_url url none = "") ∧
    (∀ h, urlparseNetloc url = Except.ok h → h ∈ default_allowed_domains → url ≠ "" →
        sanitize_url url none = url) := by
  refine ⟨?_, ?_, ?_, ?_⟩
  · intro h
    simp [sanitize_url, h]
  · intro e he
    by_cases hu : url = "" <;> simp [sanitize_url, hu, he]
  · intro h hh hmem
    by_cases hu : url = "" <;> simp [sanitize_url, hu, hh, hmem]
  · intro h hh hmem hu
    simp [sanitize_url, hu, hh, hmem]

/-- Witness for C5: the non-allow-listed `https://evil.example/x` is
rejected to `""` and the allow-listed `https://github.com/org/repo` is
returned unchanged. -/
theorem C5_sanitize_url_allowlist_witness :
    sanitize_url "https://evil.example/x" none = "" ∧
    sanitize_url "https://github.com/org/repo" none = "https://github.com/org/repo" := by
  constructor
  · exact (C5_sanitize_url_allowlist "https://evil.example/x").2.2.1 "evil.example" rfl (by decide)
  · exact (C5_sanitize_url_allowlist "https://github.com/org/repo").2.2.2 "github.com" rfl
      (by decide) (by decide)

/-- C6: `sanitize_text` returns `""` for empty input and otherwise the
HTML-entity-escaped form of the input; the output never contains the
characters `<` or `>`, and every `&` in the output begins a complete
escape entity (no unescaped `&`); as a total function it never fails. -/
theorem C6_sanitize_text_output_escaped (s : String) :
    sanitize_text "" = "" ∧
    (s ≠ "" → sanitize_text s = htmlEscape s) ∧
    '<' ∉ (sanitize_text s).data ∧
    '>' ∉ (sanitize_text s).data ∧
    (∀ t, t <:+ (sanitize_text s).data → t.head? = some '&' →
        ∃ e ∈ entityStrings, e <+: t) := by
  refine ⟨rfl, ?_, sanitize_text_no_lt s, sanitize_text_no_gt s, sanitize_text_ampSafe s⟩
  intro hs
  simp [sanitize_text, hs]

/-- Witness for C6, at the spec's example `<script>alert(1)</script>`:
the escaped form is produced and contains no `<` or `>`. -/
theorem C6_sanitize_text_output_escaped_witness :
    sanitize_text "<script>alert(1)</script>"
        = "&lt;script&gt;alert(1)&lt;/script&gt;" ∧
    '<' ∉ (sanitize_text "<script>alert(1)</script>").data ∧
    '>' ∉ (sanitize_text "<script>alert(1)</script>").data := by
  refine ⟨?_, (C6_sanitize_text_output_escaped "<script>alert(1)</script>").2.2.1,
    (C6_sanitize_text_output_escaped "<script>alert(1)</script>").2.2.2.1⟩
  rw [(C6_sanitize_text_output_escaped "<script>alert(1)</script>").2.1 (by decide)]
  decide

/-- C9: on any transport error or HTTP-status error `fetch_package_data`
returns an empty record set as the degraded result together with a
sanitized error message (the raw exception text passed through
`sanitize_text`, so the displayed message contains no `<` or `>`); the
single-request structure performs no retry; on success it returns exactly
the parser's result on the response body, with no error message. -/
theorem C9_fetch_error_handling (net : Except String HttpResponse) :
    (∀ e, net = Except.error e →
        fetch_package_data net
          = (Except.ok [], some ("Error fetching package data: " ++ sanitize_text e))) ∧
    (∀ r, net = Except.ok r → r.ok = false →
        fetch_package_data net
          = (Except.ok [], some ("Error fetching package data: " ++ sanitize_text r.reason))) ∧
    (∀ r, net = Except.ok r → r.ok = true →
        fetch_package_data net = (parse_package_data r.body, none)) ∧
    (∀ m, (fetch_package_data net).2 = some m → '<' ∉ m.data ∧ '>' ∉ m.data) := by
  refine ⟨?_, ?_, ?_, ?_⟩
  · rintro e rfl
    rfl
  · rintro r rfl hr
    simp [fetch_package_data, hr]
  · rintro r rfl hr
    simp [fetch_package_data, hr]
  · intro m hm
    have hform : ∃ x, m = "Error fetching package data: " ++ sanitize_text x := by
      unfold fetch_package_data at hm
      match net with
      | Except.error e =>
        simp only [Option.some.injEq] at hm
        exact ⟨e, hm.symm⟩
      | Except.ok r =>
        by_cases hr : r.ok
        · simp [hr] at hm
        · dsimp only at hm
          rw [if_neg hr] at hm
          simp only [Option.some.injEq] at hm
          exact ⟨r.reason, hm.symm⟩
    rcases hform with ⟨x, rfl⟩
    rw [String.data_append]
    constructor
    · intro hmem
      rcases List.mem_append.mp hmem with h | h
      · revert h
        decide
      · exact sanitize_text_no_lt x h
    · intro hmem
      rcases List.mem_append.mp hmem with h | h
      · revert h
        decide
      · exact sanitize_text_no_gt x h

/-- Witness for C9: a transport failure with markup-bearing exception text
degrades to the empty record set and an escaped message. -/
theorem C9_fetch_error_handling_witness :
    fetch_package_data (Except.error "<boom>")
        = (Except.ok [], some "Error fetching package data: &lt;boom&gt;") := by
  rw [(C9_fetch_error_handling (Except.error "<boom>")).1 "<boom>" rfl]
  rfl

/-- C10: for non-empty parseable URLs, acceptance by `sanitize_url`
depends only on the parsed netloc being an entry of the allow-list — the
scheme is never examined — so `ftp://github.com/x` and the scheme-relative
`//github.com/x` pass through unchanged, while `https://github.com:443/x`
is rejected to `""` because its netloc `github.com:443` (which includes
the port) is not an allow-list entry. -/
theorem C10_netloc_only_decision :
    (∀ url h, url ≠ "" → urlparseNetloc url = Except.ok h →
        (sanitize_url url none = url ↔ h ∈ default_allowed_domains)) ∧
    sanitize_url "ftp://github.com/x" none = "ftp://github.com/x" ∧
    sanitize_url "//github.com/x" none = "//github.com/x" ∧
    sanitize_url "https://github.com:443/x" none = "" ∧
    urlparseNetloc "https://github.com:443/x" = Except.ok "github.com:443" := by
  refine ⟨?_, by decide, by decide, by decide, rfl⟩
  intro url h hu hh
  constructor
  · intro hacc
    by_contra hmem
    have : sanitize_url url none = "" := by
      simp [sanitize_url, hu, hh, hmem]
    rw [hacc] at this
    exact hu this
  · intro hmem
    simp [sanitize_url, hu, hh, hmem]

/-- Witness for C10: the netloc-only criterion applied at the concrete
input `ftp://github.com/x`, whose netloc `github.com` is allow-listed. -/
theorem C10_netloc_only_decision_witness :
    sanitize_url "ftp://github.com/x" none = "ftp://github.com/x" :=
  (C10_netloc_only_decision.1 "ftp://github.com/x" "github.com" (by decide) rfl).mpr
    (by decide)
